import Mathlib

/-!
# Verification of the fscp `session_message` codec and crypto envelope

Shallow embedding of `src/src/session_message.cpp` (libfscp). Buffers are
`List Nat` of bytes; the two 16-bit length fields are big-endian (network
byte order). The surrounding `message` envelope (header layout, `length()`),
the `session_message.hpp` accessors and the cryptoplus/OpenSSL primitives are
not part of the given source; they are modelled from the specification at
their interface boundary, as marked in the doc comments below.
-/

namespace Fscp

/-- Modelled from the spec: the fixed-size common header of the external
`message` envelope (protocol version, message type tag, 16-bit body length):
one byte of version, one byte of type, two bytes of length. -/
def HEADER_LENGTH : Nat := 4

/-- Modelled from the spec: `MIN_BODY_LENGTH` of `session_message.hpp` is the
size of the two 16-bit length fields (`2 * sizeof(uint16_t)`). -/
def MIN_BODY_LENGTH : Nat := 4

/-- Modelled from the spec: the protocol version stamped by `message::write`
(`constants.hpp`, not in the given source). No claim depends on its value. -/
def CURRENT_PROTOCOL_VERSION : Nat := 2

/-- Read a 16-bit big-endian value at byte offset `i` of buffer `b`, the way
the C++ accessors read raw memory (`ntohs(buffer_tools::get<uint16_t>(...))`).
Out-of-range bytes read as 0 here; `be16at?` below is the guarded variant used
to state that `check_format` never actually reads out of bounds. -/
def be16at (b : List Nat) (i : Nat) : Nat :=
  256 * b.getD i 0 + b.getD (i + 1) 0

/-- Bounds-guarded 16-bit big-endian read: `none` when either byte lies
outside the buffer. -/
def be16at? (b : List Nat) (i : Nat) : Option Nat :=
  match b.get? i, b.get? (i + 1) with
  | some hi, some lo => some (256 * hi + lo)
  | _, _ => none

/-- Big-endian encoding of a length as written by
`buffer_tools::set<uint16_t>(buf, off, htons(static_cast<uint16_t>(n)))`:
the cast truncates to 16 bits, then the two bytes are stored high first. -/
def be16enc (n : Nat) : List Nat :=
  [n % 65536 / 256, n % 256]

/-- Modelled from the spec: `message::length()` of the envelope collaborator,
the body length of the buffer: total buffer length minus the header. -/
def msg_length (b : List Nat) : Nat := b.length - HEADER_LENGTH

/-- Modelled from the spec: `session_message::ciphertext_size()`, the 16-bit
network-order `ciphertextLength` field immediately following the header. -/
def ciphertext_size (b : List Nat) : Nat := be16at b HEADER_LENGTH

/-- Modelled from the spec: `session_message::ciphertext()`, the
`ciphertextLength` bytes following the first length field. -/
def ciphertext (b : List Nat) : List Nat :=
  (b.drop (HEADER_LENGTH + 2)).take (ciphertext_size b)

/-- Modelled from the spec: `session_message::ciphertext_signature_size()`,
the 16-bit network-order `signatureLength` field immediately following the
ciphertext. -/
def ciphertext_signature_size (b : List Nat) : Nat :=
  be16at b (HEADER_LENGTH + 2 + ciphertext_size b)

/-- Modelled from the spec: `session_message::ciphertext_signature()`, the
`signatureLength` bytes following the second length field. -/
def ciphertext_signature (b : List Nat) : List Nat :=
  (b.drop (HEADER_LENGTH + 2 + ciphertext_size b + 2)).take
    (ciphertext_signature_size b)

/-- The only framing error `session_message::check_format` reports
(`throw std::runtime_error("bad message length")`). -/
inductive FormatError where
  | badLength
deriving Repr, DecidableEq

/-- `session_message::check_format` (session_message.cpp:63-79): three
progressive length checks, each failure throwing "bad message length". -/
def check_format (b : List Nat) : Except FormatError Unit :=
  if msg_length b < MIN_BODY_LENGTH then
    .error .badLength
  else if msg_length b < MIN_BODY_LENGTH + ciphertext_size b then
    .error .badLength
  else if msg_length b ≠ MIN_BODY_LENGTH + ciphertext_size b + ciphertext_signature_size b then
    .error .badLength
  else
    .ok ()

/-- `session_message::session_message` (session_message.cpp:57-61): the
constructor wraps a received buffer and eagerly runs `check_format` once;
a malformed buffer produces no `session_message` value. -/
def session_message_mk (b : List Nat) : Option (List Nat) :=
  match check_format b with
  | .ok _ => some b
  | .error _ => none

/-- The values the field-encoding `_write` hands to its collaborators and
returns: the byte count returned to the caller and the (version, type,
body-length) triple passed to the external `message::write` header stamper. -/
structure WriteInfo where
  bytesWritten : Nat
  headerVersion : Nat
  headerType : Nat
  headerBodyLen : Nat
deriving Repr, DecidableEq

/-- The body bytes laid out by the field-encoding `_write`
(session_message.cpp:121-124): truncated-to-16-bit ciphertext length,
ciphertext, truncated-to-16-bit signature length, signature. -/
def frameBody (ct sig : List Nat) : List Nat :=
  be16enc ct.length ++ ct ++ be16enc sig.length ++ sig

/-- `session_message::_write` field-encoding overload
(session_message.cpp:112-129). First component: `none` models the
`throw std::runtime_error("buf_len")` capacity failure, `some` carries the
returned byte count and the header values delegated to `message::write`
(modelled from the spec at the collaborator boundary as the stamped triple).
Second component: the caller's buffer after the call — unchanged on failure
(the throw happens before any store), otherwise the header region followed by
the framed fields and the untouched tail. -/
def sessionWriteFields (buf ct sig : List Nat) (t : Nat) :
    Option WriteInfo × List Nat :=
  let payload_len := MIN_BODY_LENGTH + ct.length + sig.length
  if buf.length < HEADER_LENGTH + payload_len then
    (none, buf)
  else
    (some ⟨HEADER_LENGTH + payload_len, CURRENT_PROTOCOL_VERSION, t, payload_len⟩,
      buf.take HEADER_LENGTH ++ frameBody ct sig ++ buf.drop (HEADER_LENGTH + payload_len))

/-- The crypto failures of the envelope layer (cryptoplus throws on any
OpenSSL primitive failure; the capacity throw of the field `_write` is
`"buf_len"`). -/
inductive CryptoError where
  | encryptionFailed
  | decryptionFailed
  | signatureInvalid
  | pssPaddingFailed
  | signingFailed
  | capacityError
deriving Repr, DecidableEq

/-- Modelled from the spec: the asymmetric-key primitive collaborator
(`cryptoplus::pkey::rsa_key`, not in the given source): OAEP-padded
public encrypt / private decrypt, raw (no-padding) private encrypt /
public decrypt, and the `size()` (modulus size) query. Each fallible
primitive returns `none` where the OpenSSL call would fail. -/
structure RsaKeyPrim where
  size : Nat
  publicEncryptOAEP : List Nat → Option (List Nat)
  privateDecryptOAEP : List Nat → Option (List Nat)
  privateEncryptRaw : List Nat → Option (List Nat)
  publicDecryptRaw : List Nat → Option (List Nat)

/-- Modelled from the spec: the digest and PSS-padding collaborators
(`cryptoplus::hash::message_digest_context`, `padding_add_PKCS1_PSS`,
`verify_PKCS1_PSS`, not in the given source). The digest algorithm is the
fixed `MESSAGE_DIGEST_ALGORITHM`, so `digest` takes no algorithm argument;
`pssPad` and `pssVerify` take the signing key's modulus size. -/
structure CryptoPrim where
  digest : List Nat → List Nat
  pssPad : Nat → List Nat → Option (List Nat)
  pssVerify : Nat → List Nat → List Nat → Bool

/-- Modelled from the spec: the OAEP capacity of a key — key size minus the
OAEP padding overhead (two hash lengths plus two bytes; 42 for the SHA-1
mask used by `RSA_PKCS1_OAEP_PADDING`). -/
def oaepCapacity (k : RsaKeyPrim) : Nat := k.size - 42

/-- `session_message::check_signature` (session_message.cpp:81-96): digest
the ciphertext, raw public-decrypt the signature to recover the padded
block, then PSS-verify the block against the digest. Every primitive
failure (raw transform or PSS check) surfaces as the same thrown
verification error. -/
def check_signature (P : CryptoPrim) (b : List Nat) (key : RsaKeyPrim) :
    Except CryptoError Unit :=
  let d := P.digest (ciphertext b)
  match key.publicDecryptRaw (ciphertext_signature b) with
  | none => .error .signatureInvalid
  | some padded =>
    if P.pssVerify key.size d padded then .ok () else .error .signatureInvalid

/-- `session_message::get_cleartext` (session_message.cpp:98-110): with a
buffer (`useBuf = true`), OAEP private-decrypt the ciphertext into it,
failing when decryption fails or the recovered cleartext exceeds the
buffer; with a null buffer, return the key's `size()` without touching any
primitive. The result carries the returned count and the bytes written. -/
def get_cleartext (b : List Nat) (useBuf : Bool) (buf_len : Nat)
    (key : RsaKeyPrim) : Except CryptoError (Nat × List Nat) :=
  if useBuf then
    match key.privateDecryptOAEP (ciphertext b) with
    | none => .error .decryptionFailed
    | some pt =>
      if buf_len < pt.length then .error .decryptionFailed
      else .ok (pt.length, pt)
  else
    .ok (key.size, [])

/-- `session_message::_write` crypto overload (session_message.cpp:131-149):
OAEP-encrypt the cleartext, digest the ciphertext, PSS-pad the digest to the
signing key's modulus size, raw private-encrypt the padded block, then frame
both via the field-encoding `_write`. -/
def sessionSeal (P : CryptoPrim) (buf cleartext : List Nat)
    (enc_key sig_key : RsaKeyPrim) (t : Nat) :
    Except CryptoError (WriteInfo × List Nat) :=
  match enc_key.publicEncryptOAEP cleartext with
  | none => .error .encryptionFailed
  | some ct =>
    let digest := P.digest ct
    match P.pssPad sig_key.size digest with
    | none => .error .pssPaddingFailed
    | some padded_buf =>
      match sig_key.privateEncryptRaw padded_buf with
      | none => .error .signingFailed
      | some sig =>
        match sessionWriteFields buf ct sig t with
        | (none, _) => .error .capacityError
        | (some info, out) => .ok (info, out)

/-- The seal pipeline as the spec words it (§4.2): five steps in fixed
order, each step's output feeding the next — encrypt, digest, PSS-pad,
raw-sign, frame — written as an explicit step-by-step `Except` chain to be
compared with the source-derived `sessionSeal`. -/
def sealSpecPipeline (P : CryptoPrim) (buf cleartext : List Nat)
    (enc_key sig_key : RsaKeyPrim) (t : Nat) :
    Except CryptoError (WriteInfo × List Nat) :=
  let step1 : Except CryptoError (List Nat) :=
    match enc_key.publicEncryptOAEP cleartext with
    | some ct => .ok ct
    | none => .error .encryptionFailed
  step1.bind fun ct =>
    let step2 : List Nat := P.digest ct
    let step3 : Except CryptoError (List Nat) :=
      match P.pssPad sig_key.size step2 with
      | some padded => .ok padded
      | none => .error .pssPaddingFailed
    step3.bind fun padded =>
      let step4 : Except CryptoError (List Nat) :=
        match sig_key.privateEncryptRaw padded with
        | some sig => .ok sig
        | none => .error .signingFailed
      step4.bind fun sig =>
        match sessionWriteFields buf ct sig t with
        | (none, _) => .error .capacityError
        | (some info, out) => .ok (info, out)

theorem mod_65536_split (n : Nat) : 256 * (n % 65536 / 256) + n % 256 = n % 65536 := by
  have h : n % 256 = n % 65536 % 256 := (Nat.mod_mod_of_dvd n (by norm_num)).symm
  rw [h]
  exact Nat.div_add_mod (n % 65536) 256

theorem frameBody_append (ct sig rest : List Nat) :
    frameBody ct sig ++ rest =
      (ct.length % 65536 / 256) :: (ct.length % 256) ::
        (ct ++ ((sig.length % 65536 / 256) :: (sig.length % 256) :: (sig ++ rest))) := by
  simp [frameBody, be16enc]

theorem length_frameBody (ct sig : List Nat) :
    (frameBody ct sig).length = 4 + ct.length + sig.length := by
  simp [frameBody, be16enc]
  omega

theorem getD_header_append (hdr L : List Nat) (k : Nat)
    (hh : hdr.length = HEADER_LENGTH) :
    (hdr ++ L).getD (HEADER_LENGTH + k) 0 = L.getD k 0 := by
  rw [List.getD_append_right hdr L 0 (HEADER_LENGTH + k) (by omega)]
  congr 1
  omega

theorem ciphertext_size_frame (hdr ct sig rest : List Nat)
    (hh : hdr.length = HEADER_LENGTH) :
    ciphertext_size (hdr ++ (frameBody ct sig ++ rest)) = ct.length % 65536 := by
  unfold ciphertext_size be16at
  have h0 := getD_header_append hdr (frameBody ct sig ++ rest) 0 hh
  have h1 := getD_header_append hdr (frameBody ct sig ++ rest) 1 hh
  simp only [Nat.add_zero] at h0
  rw [h0, h1, frameBody_append]
  simp only [List.getD_cons_zero, List.getD_cons_succ]
  exact mod_65536_split ct.length

theorem ciphertext_frame (hdr ct sig rest : List Nat)
    (hh : hdr.length = HEADER_LENGTH) (h16 : ct.length ≤ 65535) :
    ciphertext (hdr ++ (frameBody ct sig ++ rest)) = ct := by
  unfold ciphertext
  rw [ciphertext_size_frame hdr ct sig rest hh, Nat.mod_eq_of_lt (by omega)]
  have hdrop : (hdr ++ (frameBody ct sig ++ rest)).drop (HEADER_LENGTH + 2) =
      (frameBody ct sig ++ rest).drop 2 := by
    rw [← hh, List.drop_append]
  rw [hdrop, frameBody_append]
  simp only [List.drop_succ_cons, List.drop_zero]
  exact List.take_left' rfl

theorem ciphertext_signature_size_frame (hdr ct sig rest : List Nat)
    (hh : hdr.length = HEADER_LENGTH) (h16 : ct.length ≤ 65535) :
    ciphertext_signature_size (hdr ++ (frameBody ct sig ++ rest)) =
      sig.length % 65536 := by
  unfold ciphertext_signature_size be16at
  rw [ciphertext_size_frame hdr ct sig rest hh, Nat.mod_eq_of_lt (by omega)]
  have h0 : HEADER_LENGTH + 2 + ct.length = HEADER_LENGTH + (2 + ct.length) := by omega
  have h1 : HEADER_LENGTH + 2 + ct.length + 1 = HEADER_LENGTH + (2 + ct.length + 1) := by omega
  rw [h0]
  conv_lhs =>
    rw [show HEADER_LENGTH + (2 + ct.length) + 1 = HEADER_LENGTH + (2 + ct.length + 1) from by omega]
  rw [getD_header_append hdr _ (2 + ct.length) hh,
    getD_header_append hdr _ (2 + ct.length + 1) hh, frameBody_append]
  simp only [show 2 + ct.length = Nat.succ (Nat.succ ct.length) from by omega,
    show 2 + ct.length + 1 = Nat.succ (Nat.succ (ct.length + 1)) from by omega,
    List.getD_cons_succ]
  rw [List.getD_append_right ct _ 0 ct.length (by omega),
    List.getD_append_right ct _ 0 (ct.length + 1) (by omega)]
  simp only [Nat.sub_self, show ct.length + 1 - ct.length = 1 from by omega,
    List.getD_cons_zero, List.getD_cons_succ]
  exact mod_65536_split sig.length

theorem ciphertext_signature_frame (hdr ct sig rest : List Nat)
    (hh : hdr.length = HEADER_LENGTH) (h16 : ct.length ≤ 65535)
    (h16s : sig.length ≤ 65535) :
    ciphertext_signature (hdr ++ (frameBody ct sig ++ rest)) = sig := by
  unfold ciphertext_signature
  rw [ciphertext_size_frame hdr ct sig rest hh, Nat.mod_eq_of_lt (by omega),
    ciphertext_signature_size_frame hdr ct sig rest hh h16,
    Nat.mod_eq_of_lt (by omega)]
  have hdrop : (hdr ++ (frameBody ct sig ++ rest)).drop (HEADER_LENGTH + 2 + ct.length + 2) =
      (frameBody ct sig ++ rest).drop (2 + ct.length + 2) := by
    rw [show HEADER_LENGTH + 2 + ct.length + 2 = HEADER_LENGTH + (2 + ct.length + 2) from by omega,
      ← hh, List.drop_append]
  rw [hdrop, frameBody_append]
  simp only [show 2 + ct.length + 2 = Nat.succ (Nat.succ (ct.length + 2)) from by omega,
    List.drop_succ_cons]
  have hdrop2 : (ct ++ ((sig.length % 65536 / 256) :: (sig.length % 256) :: (sig ++ rest))).drop
      (ct.length + 2) =
      ((sig.length % 65536 / 256) :: (sig.length % 256) :: (sig ++ rest)).drop 2 := by
    rw [List.drop_append]
  rw [hdrop2]
  simp only [List.drop_succ_cons, List.drop_zero]
  exact List.take_left' rfl

theorem length_frame (hdr ct sig rest : List Nat)
    (hh : hdr.length = HEADER_LENGTH) :
    (hdr ++ (frameBody ct sig ++ rest)).length =
      HEADER_LENGTH + 4 + ct.length + sig.length + rest.length := by
  simp [length_frameBody, hh]
  omega

theorem check_format_ok_iff (b : List Nat) :
    check_format b = .ok () ↔
      msg_length b = MIN_BODY_LENGTH + ciphertext_size b + ciphertext_signature_size b := by
  unfold check_format
  constructor
  · intro h
    by_cases h1 : msg_length b < MIN_BODY_LENGTH
    · simp [h1] at h
    · by_cases h2 : msg_length b < MIN_BODY_LENGTH + ciphertext_size b
      · simp [h1, h2] at h
      · by_cases h3 : msg_length b ≠ MIN_BODY_LENGTH + ciphertext_size b + ciphertext_signature_size b
        · simp [h1, h2, h3] at h
        · omega
  · intro h
    have h1 : ¬ msg_length b < MIN_BODY_LENGTH := by
      unfold MIN_BODY_LENGTH at *; omega
    have h2 : ¬ msg_length b < MIN_BODY_LENGTH + ciphertext_size b := by omega
    simp [h1, h2, h]
    omega

theorem check_format_badLength (b : List Nat)
    (h : msg_length b ≠ MIN_BODY_LENGTH + ciphertext_size b + ciphertext_signature_size b) :
    check_format b = .error .badLength := by
  unfold check_format
  by_cases h1 : msg_length b < MIN_BODY_LENGTH
  · rw [if_pos h1]
  · rw [if_neg h1]
    by_cases h2 : msg_length b < MIN_BODY_LENGTH + ciphertext_size b
    · rw [if_pos h2]
    · rw [if_neg h2, if_pos h]

/-- C2: `check_format` accepts a buffer exactly when its total length is
header length + 2 + ciphertextLength + 2 + signatureLength; in particular a
buffer one byte shorter or one byte longer than that exact framed size is
rejected with the bad-length error (and so, per `session_message_mk`, no
message value is produced). -/
theorem c2_length_exactness (b : List Nat) :
    (check_format b = .ok () ↔
      b.length = HEADER_LENGTH + 2 + ciphertext_size b + 2 + ciphertext_signature_size b) ∧
    ((b.length + 1 = HEADER_LENGTH + 2 + ciphertext_size b + 2 + ciphertext_signature_size b ∨
        b.length = HEADER_LENGTH + 2 + ciphertext_size b + 2 + ciphertext_signature_size b + 1) →
      check_format b = .error .badLength) := by
  constructor
  · rw [check_format_ok_iff b]
    unfold msg_length MIN_BODY_LENGTH HEADER_LENGTH
    omega
  · intro h
    apply check_format_badLength
    unfold msg_length MIN_BODY_LENGTH HEADER_LENGTH at *
    omega

theorem c2_length_exactness_witness :
    check_format [0, 0, 0, 0, 0, 0, 0, 0, 0] = .error .badLength :=
  (c2_length_exactness [0, 0, 0, 0, 0, 0, 0, 0, 0]).2 (Or.inr (by rfl))

/-- C10: every successfully constructed `session_message` is the unchanged
input buffer and satisfies `length() = MIN_BODY_LENGTH + ciphertext_size() +
ciphertext_signature_size()`; the format check runs once in the constructor
and (the functional embedding being read-only by construction) the invariant
holds for the value's whole lifetime. -/
theorem c10_wellformed_invariant (b m : List Nat)
    (h : session_message_mk b = some m) :
    m = b ∧
      msg_length m = MIN_BODY_LENGTH + ciphertext_size m + ciphertext_signature_size m := by
  unfold session_message_mk at h
  cases hc : check_format b with
  | ok u =>
    rw [hc] at h
    cases h
    cases u
    exact ⟨rfl, (check_format_ok_iff b).mp hc⟩
  | error e =>
    rw [hc] at h
    cases h

theorem c10_wellformed_invariant_witness :
    [0, 0, 0, 0, 0, 1, 7, 0, 0] = [0, 0, 0, 0, 0, 1, 7, 0, 0] ∧
      msg_length [0, 0, 0, 0, 0, 1, 7, 0, 0] =
        MIN_BODY_LENGTH + ciphertext_size [0, 0, 0, 0, 0, 1, 7, 0, 0] +
          ciphertext_signature_size [0, 0, 0, 0, 0, 1, 7, 0, 0] :=
  c10_wellformed_invariant [0, 0, 0, 0, 0, 1, 7, 0, 0] [0, 0, 0, 0, 0, 1, 7, 0, 0] (by rfl)

theorem be16at?_eq_of_lt (b : List Nat) (i : Nat) (h : i + 1 < b.length) :
    be16at? b i = some (be16at b i) := by
  have hi : i < b.length := by omega
  unfold be16at? be16at
  rw [List.get?_eq_get hi, List.get?_eq_get h,
    List.getD_eq_getElem b 0 hi, List.getD_eq_getElem b 0 h]
  rfl

/-- C8: the three `check_format` checks are progressive — failing the
minimum-length check rejects immediately; once the minimum length holds the
`ciphertextLength` read is in bounds (the guarded read succeeds and equals
the raw read); failing the ciphertext-bound check rejects; and once the
ciphertext bound holds the `signatureLength` read is in bounds — so no
length-field read goes past the end of the buffer. -/
theorem c8_progressive_bounds (b : List Nat) :
    (msg_length b < MIN_BODY_LENGTH → check_format b = .error .badLength) ∧
    (MIN_BODY_LENGTH ≤ msg_length b →
      be16at? b HEADER_LENGTH = some (ciphertext_size b)) ∧
    (MIN_BODY_LENGTH ≤ msg_length b →
      msg_length b < MIN_BODY_LENGTH + ciphertext_size b →
      check_format b = .error .badLength) ∧
    (MIN_BODY_LENGTH + ciphertext_size b ≤ msg_length b →
      be16at? b (HEADER_LENGTH + 2 + ciphertext_size b) =
        some (ciphertext_signature_size b)) := by
  refine ⟨?_, ?_, ?_, ?_⟩
  · intro h
    unfold check_format
    rw [if_pos h]
  · intro h
    unfold ciphertext_size
    apply be16at?_eq_of_lt
    unfold msg_length MIN_BODY_LENGTH HEADER_LENGTH at *
    omega
  · intro h1 h2
    unfold check_format
    rw [if_neg (by omega), if_pos h2]
  · intro h
    unfold ciphertext_signature_size
    apply be16at?_eq_of_lt
    unfold msg_length MIN_BODY_LENGTH HEADER_LENGTH at *
    omega

theorem c8_progressive_bounds_witness :
    be16at? [0, 0, 0, 0, 0, 0, 0, 0] HEADER_LENGTH =
        some (ciphertext_size [0, 0, 0, 0, 0, 0, 0, 0]) ∧
      check_format [0, 0, 0] = .error .badLength :=
  ⟨(c8_progressive_bounds [0, 0, 0, 0, 0, 0, 0, 0]).2.1 (by decide),
    (c8_progressive_bounds [0, 0, 0]).1 (by decide)⟩

/-- C6: the field-encoding `_write` fails exactly when the buffer is smaller
than header length + 4 + ciphertextLength + signatureLength; on failure the
buffer is untouched; on success the returned byte count is exactly that
required size and the body length handed to the header writer is
4 + ciphertextLength + signatureLength. -/
theorem c6_capacity_atomicity (buf ct sig : List Nat) (t : Nat) :
    ((sessionWriteFields buf ct sig t).1 = none ↔
      buf.length < HEADER_LENGTH + MIN_BODY_LENGTH + ct.length + sig.length) ∧
    ((sessionWriteFields buf ct sig t).1 = none →
      (sessionWriteFields buf ct sig t).2 = buf) ∧
    (∀ info, (sessionWriteFields buf ct sig t).1 = some info →
      info.bytesWritten = HEADER_LENGTH + MIN_BODY_LENGTH + ct.length + sig.length ∧
        info.headerBodyLen = MIN_BODY_LENGTH + ct.length + sig.length) := by
  by_cases h : buf.length < HEADER_LENGTH + (MIN_BODY_LENGTH + ct.length + sig.length)
  · have hw : sessionWriteFields buf ct sig t = (none, buf) := by
      unfold sessionWriteFields
      simp only [if_pos h]
    rw [hw]
    refine ⟨⟨fun _ => by omega, fun _ => rfl⟩, fun _ => rfl, fun info hinfo => ?_⟩
    simp at hinfo
  · have hw : sessionWriteFields buf ct sig t =
        (some ⟨HEADER_LENGTH + (MIN_BODY_LENGTH + ct.length + sig.length),
            CURRENT_PROTOCOL_VERSION, t, MIN_BODY_LENGTH + ct.length + sig.length⟩,
          buf.take HEADER_LENGTH ++ frameBody ct sig ++
            buf.drop (HEADER_LENGTH + (MIN_BODY_LENGTH + ct.length + sig.length))) := by
      unfold sessionWriteFields
      simp only [if_neg h]
    rw [hw]
    refine ⟨⟨fun hn => by simp at hn, fun hlt => absurd (by omega) h⟩,
      fun hn => by simp at hn, fun info hinfo => ?_⟩
    have hi := Option.some.inj hinfo
    rw [← hi]
    constructor
    · show HEADER_LENGTH + (MIN_BODY_LENGTH + ct.length + sig.length) =
        HEADER_LENGTH + MIN_BODY_LENGTH + ct.length + sig.length
      omega
    · rfl

theorem c6_capacity_atomicity_witness :
    (sessionWriteFields [0, 0, 0] [1] [] 0).2 = [0, 0, 0] ∧
      (⟨9, CURRENT_PROTOCOL_VERSION, 0, 5⟩ : WriteInfo).bytesWritten =
          HEADER_LENGTH + MIN_BODY_LENGTH + [1].length + ([] : List Nat).length ∧
        (⟨9, CURRENT_PROTOCOL_VERSION, 0, 5⟩ : WriteInfo).headerBodyLen =
          MIN_BODY_LENGTH + [1].length + ([] : List Nat).length :=
  ⟨(c6_capacity_atomicity [0, 0, 0] [1] [] 0).2.1 (by rfl),
    (c6_capacity_atomicity [0, 0, 0, 0, 0, 0, 0, 0, 0] [1] [] 0).2.2
      ⟨9, CURRENT_PROTOCOL_VERSION, 0, 5⟩ (by rfl)⟩

/-- C7: `get_cleartext` with a null output buffer returns the key's `size()`
with nothing written, its result does not depend on the decryption
primitive (so no decryption is performed), and it does not depend on the
message or the capacity argument either. -/
theorem c7_size_query (b : List Nat) (buf_len : Nat) (key : RsaKeyPrim) :
    get_cleartext b false buf_len key = .ok (key.size, []) ∧
    (∀ f, get_cleartext b false buf_len { key with privateDecryptOAEP := f } =
      .ok (key.size, [])) ∧
    (∀ b' buf_len', get_cleartext b false buf_len key =
      get_cleartext b' false buf_len' key) := by
  exact ⟨rfl, fun _ => rfl, fun _ _ => rfl⟩

/-- A concrete digest/PSS collaborator used to exercise the envelope
theorems on executable inputs: the digest is the input length mod 256, PSS
padding zero-extends the digest to the modulus size, and PSS verification
demands a modulus-sized block starting with the digest. -/
def toyCrypto : CryptoPrim where
  digest := fun x => [x.length % 256]
  pssPad := fun n d => if d.length ≤ n then some (d ++ List.replicate (n - d.length) 0) else none
  pssVerify := fun n d p => decide (p.length = n) && d.isPrefixOf p

/-- A concrete key whose raw and OAEP primitives demand an input of exactly
the modulus size (5 bytes), as the real RSA transforms do. -/
def toyRawKey : RsaKeyPrim where
  size := 5
  publicEncryptOAEP := fun _ => none
  privateDecryptOAEP := fun c => if c.length = 5 then some c else none
  privateEncryptRaw := fun _ => none
  publicDecryptRaw := fun s => if s.length = 5 then some s else none

/-- C9: a buffer whose declared `ciphertextLength` or `signatureLength` is 0
but whose total length is otherwise exact passes `check_format` (the codec
does not assume non-zero fields); the failure for such a message happens only
at the crypto layer — with a key whose raw public transform (respectively
OAEP private decrypt) rejects any input not of the modulus size, a
zero-length signature makes `check_signature` fail with the
signature-invalid error and a zero-length ciphertext makes `get_cleartext`
fail with the decryption error. -/
theorem c9_zero_length_boundary :
    (∀ b : List Nat, (ciphertext_size b = 0 ∨ ciphertext_signature_size b = 0) →
      msg_length b = MIN_BODY_LENGTH + ciphertext_size b + ciphertext_signature_size b →
      check_format b = .ok ()) ∧
    (∀ (P : CryptoPrim) (b : List Nat) (key : RsaKeyPrim),
      ciphertext_signature_size b = 0 → 0 < key.size →
      (∀ s, s.length ≠ key.size → key.publicDecryptRaw s = none) →
      check_signature P b key = .error .signatureInvalid) ∧
    (∀ (b : List Nat) (buf_len : Nat) (key : RsaKeyPrim),
      ciphertext_size b = 0 → 0 < key.size →
      (∀ c, c.length ≠ key.size → key.privateDecryptOAEP c = none) →
      get_cleartext b true buf_len key = .error .decryptionFailed) := by
  refine ⟨?_, ?_, ?_⟩
  · intro b _ hlen
    exact (check_format_ok_iff b).mpr hlen
  · intro P b key hz hpos hraw
    have hsig : ciphertext_signature b = [] := by
      unfold ciphertext_signature
      rw [hz]
      exact List.take_zero _
    unfold check_signature
    rw [hsig, hraw [] (by simp; omega)]
  · intro b buf_len key hz hpos hdec
    have hct : ciphertext b = [] := by
      unfold ciphertext
      rw [hz]
      exact List.take_zero _
    unfold get_cleartext
    rw [if_pos rfl, hct, hdec [] (by simp; omega)]

theorem c9_zero_length_boundary_witness :
    check_format [0, 0, 0, 0, 0, 0, 0, 3, 1, 2, 3] = .ok () ∧
      check_signature toyCrypto [0, 0, 0, 0, 0, 2, 7, 7, 0, 0] toyRawKey =
          .error .signatureInvalid ∧
        get_cleartext [0, 0, 0, 0, 0, 0, 0, 1, 8] true 10 toyRawKey =
          .error .decryptionFailed :=
  ⟨c9_zero_length_boundary.1 [0, 0, 0, 0, 0, 0, 0, 3, 1, 2, 3] (Or.inl (by rfl)) (by rfl),
    c9_zero_length_boundary.2.1 toyCrypto [0, 0, 0, 0, 0, 2, 7, 7, 0, 0] toyRawKey
      (by rfl) (by decide)
      (fun s h => by
        have h5 : s.length ≠ 5 := h
        simp only [toyRawKey]
        rw [if_neg h5]),
    c9_zero_length_boundary.2.2 [0, 0, 0, 0, 0, 0, 0, 1, 8] 10 toyRawKey
      (by rfl) (by decide)
      (fun c h => by
        have h5 : c.length ≠ 5 := h
        simp only [toyRawKey]
        rw [if_neg h5])⟩

/-- C5: for every message and key, `check_signature` either succeeds or
fails with the signature-invalid error; a failing raw public-key transform,
a recovered block whose size differs from the key's modulus size (under a
PSS check that rejects wrongly sized blocks), and a failing PSS check each
yield exactly that error — no other outcome and no partial trust. -/
theorem c5_verification_totality (P : CryptoPrim) (b : List Nat) (key : RsaKeyPrim) :
    (check_signature P b key = .ok () ∨
      check_signature P b key = .error .signatureInvalid) ∧
    (key.publicDecryptRaw (ciphertext_signature b) = none →
      check_signature P b key = .error .signatureInvalid) ∧
    (∀ padded, key.publicDecryptRaw (ciphertext_signature b) = some padded →
      padded.length ≠ key.size →
      (∀ d p, p.length ≠ key.size → P.pssVerify key.size d p = false) →
      check_signature P b key = .error .signatureInvalid) ∧
    (∀ padded, key.publicDecryptRaw (ciphertext_signature b) = some padded →
      P.pssVerify key.size (P.digest (ciphertext b)) padded = false →
      check_signature P b key = .error .signatureInvalid) := by
  refine ⟨?_, ?_, ?_, ?_⟩
  · cases hr : key.publicDecryptRaw (ciphertext_signature b) with
    | none => exact Or.inr (by simp only [check_signature, hr])
    | some padded =>
      by_cases hv : P.pssVerify key.size (P.digest (ciphertext b)) padded
      · exact Or.inl (by simp only [check_signature, hr, if_pos hv])
      · exact Or.inr (by simp only [check_signature, hr, if_neg hv])
  · intro hr
    simp only [check_signature, hr]
  · intro padded hr hsz hcontract
    simp only [check_signature, hr]
    rw [if_neg (by simp [hcontract (P.digest (ciphertext b)) padded hsz])]
  · intro padded hr hv
    simp only [check_signature, hr]
    rw [if_neg (by simp [hv])]

theorem c5_verification_totality_witness :
    check_signature toyCrypto [1, 2, 3] toyRawKey = .error .signatureInvalid ∧
      check_signature toyCrypto [0, 0, 0, 0, 0, 0, 0, 5, 9, 9, 9, 9, 9] toyRawKey =
        .error .signatureInvalid :=
  ⟨(c5_verification_totality toyCrypto [1, 2, 3] toyRawKey).2.1 (by rfl),
    (c5_verification_totality toyCrypto [0, 0, 0, 0, 0, 0, 0, 5, 9, 9, 9, 9, 9]
        toyRawKey).2.2.2 [9, 9, 9, 9, 9] (by rfl) (by rfl)⟩

/-- C4: the source seal path equals the spec's five-step pipeline —
OAEP-encrypt, digest the ciphertext, PSS-pad the digest to the signing
key's modulus size, raw private-key transform of the padded block, then
frame via the codec — in that order, each step's output feeding the next. -/
theorem c4_seal_pipeline_order (P : CryptoPrim) (buf cleartext : List Nat)
    (enc_key sig_key : RsaKeyPrim) (t : Nat) :
    sessionSeal P buf cleartext enc_key sig_key t =
      sealSpecPipeline P buf cleartext enc_key sig_key t := by
  unfold sessionSeal sealSpecPipeline
  cases hc : enc_key.publicEncryptOAEP cleartext with
  | none => rfl
  | some ct =>
    dsimp only [Except.bind]
    cases hp : P.pssPad sig_key.size (P.digest ct) with
    | none => rfl
    | some padded =>
      dsimp only [Except.bind]
      cases hs : sig_key.privateEncryptRaw padded with
      | none => rfl
      | some sg => dsimp only [Except.bind]

theorem frame_signatureLen_field (hdr ct sig rest : List Nat)
    (hh : hdr.length = HEADER_LENGTH) :
    be16at (hdr ++ (frameBody ct sig ++ rest)) (HEADER_LENGTH + 2 + ct.length) =
      sig.length % 65536 := by
  unfold be16at
  rw [show HEADER_LENGTH + 2 + ct.length = HEADER_LENGTH + (2 + ct.length) from by omega]
  conv_lhs =>
    rw [show HEADER_LENGTH + (2 + ct.length) + 1 = HEADER_LENGTH + (2 + ct.length + 1) from by
      omega]
  rw [getD_header_append hdr _ (2 + ct.length) hh,
    getD_header_append hdr _ (2 + ct.length + 1) hh, frameBody_append]
  simp only [show 2 + ct.length = Nat.succ (Nat.succ ct.length) from by omega,
    show 2 + ct.length + 1 = Nat.succ (Nat.succ (ct.length + 1)) from by omega,
    List.getD_cons_succ]
  rw [List.getD_append_right ct _ 0 ct.length (by omega),
    List.getD_append_right ct _ 0 (ct.length + 1) (by omega)]
  simp only [Nat.sub_self, show ct.length + 1 - ct.length = 1 from by omega,
    List.getD_cons_zero, List.getD_cons_succ]
  exact mod_65536_split sig.length

theorem frame_ciphertext_bytes (hdr ct sig rest : List Nat)
    (hh : hdr.length = HEADER_LENGTH) :
    ((hdr ++ (frameBody ct sig ++ rest)).drop (HEADER_LENGTH + 2)).take ct.length = ct := by
  have hdrop : (hdr ++ (frameBody ct sig ++ rest)).drop (HEADER_LENGTH + 2) =
      (frameBody ct sig ++ rest).drop 2 := by
    rw [← hh, List.drop_append]
  rw [hdrop, frameBody_append]
  simp only [List.drop_succ_cons, List.drop_zero]
  exact List.take_left' rfl

theorem frame_signature_bytes (hdr ct sig rest : List Nat)
    (hh : hdr.length = HEADER_LENGTH) :
    ((hdr ++ (frameBody ct sig ++ rest)).drop (HEADER_LENGTH + 2 + ct.length + 2)).take
      sig.length = sig := by
  have hdrop : (hdr ++ (frameBody ct sig ++ rest)).drop (HEADER_LENGTH + 2 + ct.length + 2) =
      (frameBody ct sig ++ rest).drop (2 + ct.length + 2) := by
    rw [show HEADER_LENGTH + 2 + ct.length + 2 = HEADER_LENGTH + (2 + ct.length + 2) from by
      omega, ← hh, List.drop_append]
  rw [hdrop, frameBody_append]
  simp only [show 2 + ct.length + 2 = Nat.succ (Nat.succ (ct.length + 2)) from by omega,
    List.drop_succ_cons]
  have hdrop2 : (ct ++ ((sig.length % 65536 / 256) :: (sig.length % 256) ::
      (sig ++ rest))).drop (ct.length + 2) =
      ((sig.length % 65536 / 256) :: (sig.length % 256) :: (sig ++ rest)).drop 2 := by
    rw [List.drop_append]
  rw [hdrop2]
  simp only [List.drop_succ_cons, List.drop_zero]
  exact List.take_left' rfl

/-- C3 counterexample: a 65536-byte ciphertext is not rejected by the
field-encoding `_write` — given a large enough buffer the write succeeds,
and the 16-bit `ciphertextLength` field of the produced frame holds 0
(65536 truncated to 16 bits), not 65536; likewise a 65537-byte signature
is not rejected and its 16-bit `signatureLength` field holds 1. -/
theorem c3_counterexample :
    (((sessionWriteFields (List.replicate 70000 0) (List.replicate 65536 1) [5] 0).1).isSome =
        true ∧
      ciphertext_size
          ((sessionWriteFields (List.replicate 70000 0) (List.replicate 65536 1) [5] 0).2) =
        0) ∧
      ((sessionWriteFields (List.replicate 70000 0) [9] (List.replicate 65537 2) 0).1).isSome =
          true ∧
        be16at ((sessionWriteFields (List.replicate 70000 0) [9] (List.replicate 65537 2) 0).2)
          (HEADER_LENGTH + 2 + 1) = 1 := by
  constructor
  · have hlen : ¬ (List.replicate 70000 (0 : Nat)).length <
        HEADER_LENGTH + (MIN_BODY_LENGTH + (List.replicate 65536 (1 : Nat)).length +
          [(5 : Nat)].length) := by
      simp only [List.length_replicate]
      simp only [List.length_cons, List.length_nil, HEADER_LENGTH, MIN_BODY_LENGTH]
      omega
    have hw : sessionWriteFields (List.replicate 70000 0) (List.replicate 65536 1) [5] 0 =
        (some ⟨HEADER_LENGTH + (MIN_BODY_LENGTH + (List.replicate 65536 (1 : Nat)).length +
            [(5 : Nat)].length), CURRENT_PROTOCOL_VERSION, 0,
            MIN_BODY_LENGTH + (List.replicate 65536 (1 : Nat)).length + [(5 : Nat)].length⟩,
          (List.replicate 70000 (0 : Nat)).take HEADER_LENGTH ++
            frameBody (List.replicate 65536 1) [5] ++
            (List.replicate 70000 (0 : Nat)).drop
              (HEADER_LENGTH + (MIN_BODY_LENGTH + (List.replicate 65536 (1 : Nat)).length +
                [(5 : Nat)].length))) := by
      unfold sessionWriteFields
      simp only [if_neg hlen]
    rw [hw]
    refine ⟨rfl, ?_⟩
    have hh : ((List.replicate 70000 (0 : Nat)).take HEADER_LENGTH).length = HEADER_LENGTH := by
      rw [List.length_take, List.length_replicate]
      unfold HEADER_LENGTH
      omega
    rw [List.append_assoc]
    rw [ciphertext_size_frame _ _ _ _ hh]
    rw [List.length_replicate]
  · have hlen : ¬ (List.replicate 70000 (0 : Nat)).length <
        HEADER_LENGTH + (MIN_BODY_LENGTH + [(9 : Nat)].length +
          (List.replicate 65537 (2 : Nat)).length) := by
      simp only [List.length_replicate]
      simp only [List.length_cons, List.length_nil, HEADER_LENGTH, MIN_BODY_LENGTH]
      omega
    have hw : sessionWriteFields (List.replicate 70000 0) [9] (List.replicate 65537 2) 0 =
        (some ⟨HEADER_LENGTH + (MIN_BODY_LENGTH + [(9 : Nat)].length +
            (List.replicate 65537 (2 : Nat)).length), CURRENT_PROTOCOL_VERSION, 0,
            MIN_BODY_LENGTH + [(9 : Nat)].length + (List.replicate 65537 (2 : Nat)).length⟩,
          (List.replicate 70000 (0 : Nat)).take HEADER_LENGTH ++
            frameBody [9] (List.replicate 65537 2) ++
            (List.replicate 70000 (0 : Nat)).drop
              (HEADER_LENGTH + (MIN_BODY_LENGTH + [(9 : Nat)].length +
                (List.replicate 65537 (2 : Nat)).length))) := by
      unfold sessionWriteFields
      simp only [if_neg hlen]
    rw [hw]
    refine ⟨rfl, ?_⟩
    have hh : ((List.replicate 70000 (0 : Nat)).take HEADER_LENGTH).length = HEADER_LENGTH := by
      rw [List.length_take, List.length_replicate]
      unfold HEADER_LENGTH
      omega
    rw [List.append_assoc]
    have hf := frame_signatureLen_field ((List.replicate 70000 (0 : Nat)).take HEADER_LENGTH)
      [9] (List.replicate 65537 2)
      ((List.replicate 70000 (0 : Nat)).drop
        (HEADER_LENGTH + (MIN_BODY_LENGTH + [(9 : Nat)].length +
          (List.replicate 65537 (2 : Nat)).length))) hh
    rw [show HEADER_LENGTH + 2 + 1 = HEADER_LENGTH + 2 + [(9 : Nat)].length from by
      rw [List.length_cons, List.length_nil]]
    rw [hf, List.length_replicate]

/-- C3 amended: for a ciphertext or signature input longer than 65535 bytes
the field-encoding `_write` does not fail — given sufficient buffer capacity
it succeeds, the 16-bit `ciphertextLength` wire field receives the
ciphertext length modulo 2^16 and the 16-bit `signatureLength` wire field
(the two bytes following the full ciphertext) receives the signature length
modulo 2^16 (silently truncating the length values), and the ciphertext and
signature bytes are each copied into the frame in full. -/
theorem c3_truncation_amended (buf ct sig : List Nat) (t : Nat)
    (hcap : HEADER_LENGTH + MIN_BODY_LENGTH + ct.length + sig.length ≤ buf.length) :
    ∃ info, (sessionWriteFields buf ct sig t).1 = some info ∧
      be16at ((sessionWriteFields buf ct sig t).2) HEADER_LENGTH = ct.length % 65536 ∧
      be16at ((sessionWriteFields buf ct sig t).2) (HEADER_LENGTH + 2 + ct.length) =
        sig.length % 65536 ∧
      (((sessionWriteFields buf ct sig t).2).drop (HEADER_LENGTH + 2)).take ct.length = ct ∧
      (((sessionWriteFields buf ct sig t).2).drop
          (HEADER_LENGTH + 2 + ct.length + 2)).take sig.length = sig := by
  have hlen : ¬ buf.length < HEADER_LENGTH + (MIN_BODY_LENGTH + ct.length + sig.length) := by
    omega
  have hw : sessionWriteFields buf ct sig t =
      (some ⟨HEADER_LENGTH + (MIN_BODY_LENGTH + ct.length + sig.length),
          CURRENT_PROTOCOL_VERSION, t, MIN_BODY_LENGTH + ct.length + sig.length⟩,
        buf.take HEADER_LENGTH ++ frameBody ct sig ++
          buf.drop (HEADER_LENGTH + (MIN_BODY_LENGTH + ct.length + sig.length))) := by
    unfold sessionWriteFields
    simp only [if_neg hlen]
  rw [hw]
  have hh : (buf.take HEADER_LENGTH).length = HEADER_LENGTH := by
    rw [List.length_take]
    unfold HEADER_LENGTH MIN_BODY_LENGTH at *
    omega
  refine ⟨_, rfl, ?_, ?_, ?_, ?_⟩
  all_goals rw [List.append_assoc]
  · exact ciphertext_size_frame _ _ _ _ hh
  · exact frame_signatureLen_field _ _ _ _ hh
  · exact frame_ciphertext_bytes _ _ _ _ hh
  · exact frame_signature_bytes _ _ _ _ hh

theorem c3_truncation_amended_witness :
    ∃ info, (sessionWriteFields [0, 0, 0, 0, 0, 0, 0, 0, 0, 0] [1] [7] 0).1 = some info ∧
      be16at ((sessionWriteFields [0, 0, 0, 0, 0, 0, 0, 0, 0, 0] [1] [7] 0).2) HEADER_LENGTH =
          [1].length % 65536 ∧
        be16at ((sessionWriteFields [0, 0, 0, 0, 0, 0, 0, 0, 0, 0] [1] [7] 0).2)
            (HEADER_LENGTH + 2 + [1].length) = [7].length % 65536 ∧
          (((sessionWriteFields [0, 0, 0, 0, 0, 0, 0, 0, 0, 0] [1] [7] 0).2).drop
              (HEADER_LENGTH + 2)).take [1].length = [1] ∧
            (((sessionWriteFields [0, 0, 0, 0, 0, 0, 0, 0, 0, 0] [1] [7] 0).2).drop
                (HEADER_LENGTH + 2 + [1].length + 2)).take [7].length = [7] :=
  c3_truncation_amended [0, 0, 0, 0, 0, 0, 0, 0, 0, 0] [1] [7] 0 (by decide)

theorem ciphertext_size_frame2 (hdr ct sig : List Nat)
    (hh : hdr.length = HEADER_LENGTH) :
    ciphertext_size (hdr ++ frameBody ct sig) = ct.length % 65536 := by
  have h := ciphertext_size_frame hdr ct sig [] hh
  rwa [List.append_nil] at h

theorem ciphertext_frame2 (hdr ct sig : List Nat)
    (hh : hdr.length = HEADER_LENGTH) (h16 : ct.length ≤ 65535) :
    ciphertext (hdr ++ frameBody ct sig) = ct := by
  have h := ciphertext_frame hdr ct sig [] hh h16
  rwa [List.append_nil] at h

theorem ciphertext_signature_size_frame2 (hdr ct sig : List Nat)
    (hh : hdr.length = HEADER_LENGTH) (h16 : ct.length ≤ 65535) :
    ciphertext_signature_size (hdr ++ frameBody ct sig) = sig.length % 65536 := by
  have h := ciphertext_signature_size_frame hdr ct sig [] hh h16
  rwa [List.append_nil] at h

/-- C1: sealing a cleartext within the encryption key's OAEP capacity and
then opening the framed result with the matching decryption key returns
exactly that cleartext (and the frame passes `check_format` on the way).
The collaborator hypotheses state the modelled primitive contracts:
encryption succeeds up to the OAEP capacity, private decrypt inverts public
encrypt for a matching key pair, RSA outputs (ciphertext and raw signature)
fit the 16-bit wire fields, and PSS padding and raw signing succeed. -/
theorem c1_roundtrip (P : CryptoPrim) (enc_key dec_key sig_key : RsaKeyPrim)
    (buf m : List Nat) (t buf_len : Nat)
    (hcap : m.length ≤ oaepCapacity enc_key)
    (henc : ∀ m', m'.length ≤ oaepCapacity enc_key →
      (enc_key.publicEncryptOAEP m').isSome = true)
    (hpair : ∀ m' c, enc_key.publicEncryptOAEP m' = some c →
      dec_key.privateDecryptOAEP c = some m')
    (hct16 : ∀ m' c, enc_key.publicEncryptOAEP m' = some c → c.length ≤ 65535)
    (hpss : ∀ c', (P.pssPad sig_key.size (P.digest c')).isSome = true)
    (hsign : ∀ p, (sig_key.privateEncryptRaw p).isSome = true)
    (hsig16 : ∀ p s, sig_key.privateEncryptRaw p = some s → s.length ≤ 65535)
    (hbuf : HEADER_LENGTH + MIN_BODY_LENGTH + 65535 + 65535 ≤ buf.length)
    (hout : m.length ≤ buf_len) :
    ∃ info out, sessionSeal P buf m enc_key sig_key t = .ok (info, out) ∧
      check_format (out.take info.bytesWritten) = .ok () ∧
      get_cleartext (out.take info.bytesWritten) true buf_len dec_key =
        .ok (m.length, m) := by
  obtain ⟨ct, hct⟩ := Option.isSome_iff_exists.mp (henc m hcap)
  obtain ⟨padded, hp⟩ := Option.isSome_iff_exists.mp (hpss ct)
  obtain ⟨sg, hs⟩ := Option.isSome_iff_exists.mp (hsign padded)
  have h16c := hct16 m ct hct
  have h16s := hsig16 padded sg hs
  have hnlt : ¬ buf.length < HEADER_LENGTH + (MIN_BODY_LENGTH + ct.length + sg.length) := by
    omega
  have hw : sessionWriteFields buf ct sg t =
      (some ⟨HEADER_LENGTH + (MIN_BODY_LENGTH + ct.length + sg.length),
          CURRENT_PROTOCOL_VERSION, t, MIN_BODY_LENGTH + ct.length + sg.length⟩,
        buf.take HEADER_LENGTH ++ frameBody ct sg ++
          buf.drop (HEADER_LENGTH + (MIN_BODY_LENGTH + ct.length + sg.length))) := by
    unfold sessionWriteFields
    simp only [if_neg hnlt]
  have hseal : sessionSeal P buf m enc_key sig_key t =
      .ok (⟨HEADER_LENGTH + (MIN_BODY_LENGTH + ct.length + sg.length),
          CURRENT_PROTOCOL_VERSION, t, MIN_BODY_LENGTH + ct.length + sg.length⟩,
        buf.take HEADER_LENGTH ++ frameBody ct sg ++
          buf.drop (HEADER_LENGTH + (MIN_BODY_LENGTH + ct.length + sg.length))) := by
    simp only [sessionSeal, hct, hp, hs, hw]
  refine ⟨_, _, hseal, ?_, ?_⟩
  all_goals
    have hhl : (buf.take HEADER_LENGTH).length = HEADER_LENGTH := by
      rw [List.length_take]
      unfold HEADER_LENGTH MIN_BODY_LENGTH at *
      omega
    have hlenAB : (buf.take HEADER_LENGTH ++ frameBody ct sg).length =
        HEADER_LENGTH + (MIN_BODY_LENGTH + ct.length + sg.length) := by
      rw [List.length_append, hhl, length_frameBody]
      unfold MIN_BODY_LENGTH
      omega
    have htake : (buf.take HEADER_LENGTH ++ frameBody ct sg ++
        buf.drop (HEADER_LENGTH + (MIN_BODY_LENGTH + ct.length + sg.length))).take
          (HEADER_LENGTH + (MIN_BODY_LENGTH + ct.length + sg.length)) =
        buf.take HEADER_LENGTH ++ frameBody ct sg := List.take_left' hlenAB
  · show check_format ((buf.take HEADER_LENGTH ++ frameBody ct sg ++
        buf.drop (HEADER_LENGTH + (MIN_BODY_LENGTH + ct.length + sg.length))).take
          (HEADER_LENGTH + (MIN_BODY_LENGTH + ct.length + sg.length))) = .ok ()
    rw [htake]
    apply (check_format_ok_iff _).mpr
    rw [ciphertext_size_frame2 _ _ _ hhl, ciphertext_signature_size_frame2 _ _ _ hhl h16c,
      Nat.mod_eq_of_lt (by omega), Nat.mod_eq_of_lt (by omega)]
    unfold msg_length
    rw [hlenAB]
    unfold MIN_BODY_LENGTH
    omega
  · show get_cleartext ((buf.take HEADER_LENGTH ++ frameBody ct sg ++
        buf.drop (HEADER_LENGTH + (MIN_BODY_LENGTH + ct.length + sg.length))).take
          (HEADER_LENGTH + (MIN_BODY_LENGTH + ct.length + sg.length))) true buf_len dec_key =
      .ok (m.length, m)
    rw [htake]
    simp only [get_cleartext, if_pos]
    rw [ciphertext_frame2 _ _ _ hhl h16c, hpair m ct hct]
    dsimp only
    rw [if_neg (by omega)]

/-- A concrete "encryption key": the public-encrypt primitive succeeds up to
the 8-byte OAEP capacity of a 50-byte modulus, prefixing the cleartext with
its length. -/
def toyEncKey : RsaKeyPrim where
  size := 50
  publicEncryptOAEP := fun m => if m.length ≤ 8 then some (m.length :: m) else none
  privateDecryptOAEP := fun _ => none
  privateEncryptRaw := fun _ => none
  publicDecryptRaw := fun _ => none

/-- The private counterpart of `toyEncKey`: OAEP private decrypt inverts its
length-prefixed encoding. -/
def toyDecKey : RsaKeyPrim where
  size := 50
  publicEncryptOAEP := fun _ => none
  privateDecryptOAEP := fun c => some ((c.drop 1).take (c.getD 0 0))
  privateEncryptRaw := fun _ => none
  publicDecryptRaw := fun _ => none

/-- A concrete signing key whose raw private transform always produces a
modulus-sized block. -/
def toySigKey : RsaKeyPrim where
  size := 50
  publicEncryptOAEP := fun _ => none
  privateDecryptOAEP := fun _ => none
  privateEncryptRaw := fun _ => some (List.replicate 50 2)
  publicDecryptRaw := fun _ => none

theorem c1_roundtrip_witness :
    ∃ info out,
      sessionSeal toyCrypto (List.replicate 131078 0) [1, 2, 3] toyEncKey toySigKey 0 =
          .ok (info, out) ∧
        check_format (out.take info.bytesWritten) = .ok () ∧
          get_cleartext (out.take info.bytesWritten) true 3 toyDecKey =
            .ok ([1, 2, 3].length, [1, 2, 3]) :=
  c1_roundtrip toyCrypto toyEncKey toyDecKey toySigKey (List.replicate 131078 0) [1, 2, 3] 0 3
    (by decide)
    (fun m' h => by
      have h8 : m'.length ≤ 8 := h
      show (if m'.length ≤ 8 then some (m'.length :: m') else
        (none : Option (List Nat))).isSome = true
      rw [if_pos h8]
      rfl)
    (fun m' c hc => by
      have hc' : (if m'.length ≤ 8 then some (m'.length :: m') else
          (none : Option (List Nat))) = some c := hc
      by_cases h8 : m'.length ≤ 8
      · rw [if_pos h8] at hc'
        rw [← Option.some.inj hc']
        show (some (m'.take m'.length) : Option (List Nat)) = some m'
        rw [List.take_length]
      · rw [if_neg h8] at hc'
        cases hc')
    (fun m' c hc => by
      have hc' : (if m'.length ≤ 8 then some (m'.length :: m') else
          (none : Option (List Nat))) = some c := hc
      by_cases h8 : m'.length ≤ 8
      · rw [if_pos h8] at hc'
        rw [← Option.some.inj hc']
        rw [List.length_cons]
        omega
      · rw [if_neg h8] at hc'
        cases hc')
    (fun c' => by
      show (if ([c'.length % 256] : List Nat).length ≤ 50 then
          some ([c'.length % 256] ++
            List.replicate (50 - ([c'.length % 256] : List Nat).length) 0)
        else (none : Option (List Nat))).isSome = true
      rw [if_pos (by rw [List.length_cons, List.length_nil]; omega)]
      rfl)
    (fun p => rfl)
    (fun p s hs => by
      rw [← Option.some.inj hs]
      rw [List.length_replicate]
      omega)
    (by
      rw [List.length_replicate]
      unfold HEADER_LENGTH MIN_BODY_LENGTH
      omega)
    (by decide)

example : check_format [0, 0, 0, 0, 0, 1, 7, 0, 0] = .ok () := by rfl
example : check_format [0, 0, 0, 0, 0, 1, 7, 0] = .error .badLength := by rfl
example : check_format [0, 0, 0, 0, 0, 1, 7, 0, 0, 0] = .error .badLength := by rfl
example : ciphertext [0, 0, 0, 0, 0, 1, 7, 0, 0] = [7] := by rfl
example :
    (sessionWriteFields [9, 9, 9, 9, 9, 9, 9, 9, 9] [5] [] 1).2 =
      [9, 9, 9, 9, 0, 1, 5, 0, 0] := by rfl

end Fscp
